import Mathlib

/-!
A verification model of the dim-cli explorer core.

The subject is `src/core/dim-explorer.js` (class `DIMExplorer`): resolution
of an asset identifier to its on-chain definition (`getCurrency`), the levy
pool queries (`getTotalAvailableLevyAmount`, `getTotalHoldersShareLevyAmount`)
and the circulating-supply query (`getTotalCirculatingSupply`).

The JavaScript is embedded shallowly:

* JS objects that the code reads become Lean structures; a JS property that
  may be `undefined` or `null` becomes an `Option`, and a property access on
  `undefined` becomes a `JsError.typeError`, as in JS where it throws and the
  `async` method returns a rejected promise.
* The node-query collaborator (the NIS API) is a pair of oracles that either
  answer with a response object or fail with a `TransportError`.  Each
  embedded method also returns the list of node queries it issued, so that
  statements about "no network call" are direct.
* JS numbers are IEEE-754 binary64 values, embedded as exact rationals: the
  rounding function `round64` below maps a rational to the value of the
  nearest double (round to nearest, ties to even).  `Math.ceil` on a double
  is the exact mathematical ceiling (the result is always exactly
  representable for finite inputs in range, since every double of magnitude
  at least 2^52 is an integer).

`src/core/dim-parameters.js` (the `DIMParameters` registry) is not among the
provided sources; its shape is modelled from the spec where needed and each
such definition is marked `Modelled from the spec:` in its doc comment.
-/

/-! ## Binary64 numbers as exact rationals -/

/-- Round a rational to the nearest integer, ties to even.  This is the
significand rounding used by IEEE-754 round-to-nearest. -/
def rte (s : ℚ) : ℤ :=
  if s - ⌊s⌋ < 1/2 then ⌊s⌋
  else if 1/2 < s - ⌊s⌋ then ⌊s⌋ + 1
  else if 2 ∣ ⌊s⌋ then ⌊s⌋ else ⌊s⌋ + 1

/-- The binary64 rounding of a positive rational: scale into `[2^52, 2^53)`,
round the significand to the nearest integer (ties to even), scale back.
Overflow and subnormals are irrelevant at the magnitudes this development
uses and are not modelled. -/
def round64Pos (q : ℚ) : ℚ :=
  (rte (q * (2 : ℚ) ^ ((52 : ℤ) - Int.log 2 q)) : ℚ) * (2 : ℚ) ^ (Int.log 2 q - (52 : ℤ))

/-- The value of the binary64 double nearest to the rational `q`
(round to nearest, ties to even). -/
def round64 (q : ℚ) : ℚ :=
  if q = 0 then 0
  else if q < 0 then - round64Pos (-q)
  else round64Pos q

/-- The binary64 value of the JS literal `0.3`
(`dim-explorer.js:120`), which is slightly below the rational 3/10. -/
def jsPointThree : ℚ := round64 (3/10)

/-- JS multiplication of two doubles: the exact product, rounded. -/
def jsMul (a b : ℚ) : ℚ := round64 (a * b)

/-- `Math.ceil` on a finite double: the exact ceiling (always exactly
representable, see the file comment). -/
def jsCeil (q : ℚ) : ℤ := ⌈q⌉

/-- The arithmetic `Math.ceil(0.3 * hundredPercentLevyAmount)` of
`dim-explorer.js:120` applied to an integer pool amount `L`: the quantity
arrives as the double nearest to `L` (`round64 L`). -/
def holdersShareOfPool (L : ℕ) : ℤ := jsCeil (jsMul jsPointThree (round64 (L : ℚ)))

/-! ## Data model (spec section 3) -/

/-- A raw mosaic id as the node returns it: a namespace and a mosaic name. -/
structure MosaicId where
  namespaceId : String
  name : String
deriving DecidableEq

/-- The SDK collaborator `mosaicIdToName` (used at `dim-explorer.js:94` and
`dim-explorer.js:143`): formats a raw mosaic id as a `namespace:mosaic`
string.  Spec section 9 directs that this be modelled as an abstract
formatting capability rather than a reimplementation of the SDK. -/
def mosaicIdToName (m : MosaicId) : String := m.namespaceId ++ ":" ++ m.name

/-- A levy configuration attached to a mosaic definition: recipient account
address, fee, and the levy asset id (spec section 3, `LevyConfig`). -/
structure LevyConfig where
  recipient : String
  fee : ℕ
  mosaicId : MosaicId
deriving DecidableEq

/-- A resolved asset definition as the registry caches it (spec section 3,
`AssetDefinition`): total supply, divisibility, optional levy
configuration.  The identifier is the key under which it is cached. -/
structure MosaicParameters where
  totalSupply : ℕ
  divisibility : ℕ
  levy : Option LevyConfig
deriving DecidableEq

/-- A raw mosaic definition as returned by the node for a namespace. -/
structure RawMosaicDefinition where
  id : MosaicId
  totalSupply : ℕ
  divisibility : ℕ
  levy : Option LevyConfig
deriving DecidableEq

/-- One entry of an owned-mosaics balance list: `(assetIdentifier, quantity)`
(spec section 6). -/
structure OwnedMosaic where
  mosaicId : MosaicId
  quantity : ℕ
deriving DecidableEq

/-- A node response object.  The JS code reads `response.data || []`
(`dim-explorer.js:92` and `dim-explorer.js:141`), so `data` may be absent or
null: that is `none` here. -/
structure NodeResponse (α : Type) where
  data : Option (List α)
deriving DecidableEq

/-- A transport-level failure of the node-query collaborator (timeout,
unreachable node, malformed payload): spec section 7. -/
structure TransportError where
  message : String
deriving DecidableEq

/-- A failure an embedded method can reject with: a JS `TypeError` raised by
a property access on `undefined`, or a propagated transport failure. -/
inductive JsError where
  | typeError (message : String)
  | transport (err : TransportError)
deriving DecidableEq

/-- A node query, as logged by the embedded methods: either a
mosaic-definitions listing for a namespace (`dim-explorer.js:89`) or an
owned-mosaics listing for an account address (`dim-explorer.js:138`). -/
inductive NodeQuery where
  | mosaicDefinitions (ns : String)
  | mosaicsOwned (address : String)
deriving DecidableEq

/-- The node-query collaborator: the two blocking request/response
operations of spec section 6, each able to fail with a transport error. -/
structure NISApi where
  mosaicDefinitions : String → Except TransportError (NodeResponse RawMosaicDefinition)
  mosaicsOwned : String → Except TransportError (NodeResponse OwnedMosaic)

/-! ## JS object primitives -/

/-- Property read on a JS object embedded as an association list:
`obj[k]`, `none` standing for `undefined`. -/
def objGet (k : String) : List (String × α) → Option α
  | [] => none
  | (key, v) :: rest => if key = k then some v else objGet k rest

/-- Property write `obj[k] = v` on a JS object embedded as an association
list: replaces the binding of `k` when present, appends it otherwise. -/
def objSet (k : String) (v : α) : List (String × α) → List (String × α)
  | [] => [(k, v)]
  | (key, w) :: rest => if key = k then (k, v) :: rest else (key, w) :: objSet k v rest

/-- The semantics of the JS call `s.replace(/(.*):(.*)/, "$1")` at
`dim-explorer.js:85`.  With no colon in `s` the regex does not match and the
string comes back unchanged; otherwise the first, greedy group captures
everything before the last colon. -/
def replaceKeepBeforeLastColon (s : String) : String :=
  let parts := s.splitOn ":"
  if parts.length ≤ 1 then s else String.intercalate ":" parts.dropLast

/-! ## The parameter registry (spec section 4.1) -/

/-- Modelled from the spec: `src/core/dim-parameters.js` is not among the
provided sources.  Spec sections 2 and 3 describe the Parameter Registry as
holding the hard-coded description of the well-known assets (creator
account, identifiers) and the `mosaicParameters` mapping from asset
identifier to resolved definition.  `getTotalAvailableLevyAmount`
(`dim-explorer.js:135`) dereferences
`this.parameters.mosaicParameters["dim:coin"].levy.recipient` without any
prior fetch, so the well-known `dim:coin` parameters, levy configuration
included, must be present in a fresh registry. -/
structure DIMParameters where
  creator : String
  mosaicParameters : List (String × MosaicParameters)
deriving DecidableEq

/-- Modelled from the spec: the hard-coded levy configuration of the primary
asset `dim:coin` held by the registry (spec section 3: recipient account
address, levy fee, levy asset identifier; the concrete strings are
placeholders, no claim depends on their exact text). -/
def dimCoinLevy : LevyConfig :=
  { recipient := "DIM-LEVY-RECIPIENT-ADDRESS"
    fee := 10
    mosaicId := { namespaceId := "dim", name := "coin" } }

/-- Modelled from the spec: the hard-coded `dim:coin` asset parameters of a
fresh registry (divisibility 6 per spec section 2 output formatting). -/
def dimCoinParameters : MosaicParameters :=
  { totalSupply := 9000000000000000
    divisibility := 6
    levy := some dimCoinLevy }

/-- Modelled from the spec: a fresh `DIMParameters` registry as
`new DIMParameters()` builds it, with the well-known creator account and the
well-known `dim:coin` parameters present. -/
def DIMParameters.fresh : DIMParameters :=
  { creator := "DIM-COIN-CREATOR-ACCOUNT"
    mosaicParameters := [("dim:coin", dimCoinParameters)] }

/-- The coin description that `getCoin()` returns; only the creator account
is read by the explorer (`dim-explorer.js:161`). -/
structure CoinInfo where
  creator : String
deriving DecidableEq

/-- Modelled from the spec: `getWellKnownCreatorAccount` alias `getCoin` of
the registry (spec section 4.1): a pure constant lookup of the creator
account of the primary asset, with no failure modes. -/
def DIMParameters.getCoin (p : DIMParameters) : CoinInfo := { creator := p.creator }

/-- Modelled from the spec: `fromMosaicDefinition` translates a raw node
mosaic definition into the cached `AssetDefinition` shape (spec section 3:
created by translating a raw node response; immutable once created). -/
def DIMParameters.fromMosaicDefinition (raw : RawMosaicDefinition) : MosaicParameters :=
  { totalSupply := raw.totalSupply
    divisibility := raw.divisibility
    levy := raw.levy }

/-- The SDK collaborator `model.address.toAddress` used at
`dim-explorer.js:162`: derives an account address from a creator public key.
Modelled abstractly (spec section 9); the explorer never uses the result. -/
def toAddress (publicKey : String) : String := "ADDRESS-OF-" ++ publicKey

/-! ## The explorer (spec section 4.2, `src/core/dim-explorer.js`) -/

/-- The `DIMExplorer` object state.  The constructor
(`dim-explorer.js:56-70`) sets `this.parameters = new DIMParameters()` and
`this.api`; the api is passed to each embedded method explicitly. -/
structure DIMExplorer where
  parameters : DIMParameters
deriving DecidableEq

/-- `new DIMExplorer(api)`: a fresh explorer over a fresh registry. -/
def DIMExplorer.new : DIMExplorer := { parameters := DIMParameters.fresh }

/-- The value of the property access `this.mosaicParameters` inside
`getCurrency` (`dim-explorer.js:81-82`).  The `DIMExplorer` constructor sets
only `this.parameters` and `this.api`, and nothing else in the repository
assigns `this.mosaicParameters` on the explorer, so this property is always
`undefined` (`none`).  The resolved-definition cache actually lives at
`this.parameters.mosaicParameters` (written at `dim-explorer.js:98`, read at
`dim-explorer.js:135`). -/
def DIMExplorer.thisMosaicParameters (_ex : DIMExplorer) :
    Option (List (String × MosaicParameters)) := none

/-- Lines 85-101 of `getCurrency`: split the identifier, request the mosaic
definitions of the namespace, scan them for the one whose formatted name is
the requested identifier, translate and store it in the registry cache, and
return it; return `null` (`none`) when no definition matches.  In the source
these lines are behind the line-81 property access and are therefore
unreachable; they are embedded faithfully all the same. -/
def DIMExplorer.getCurrencyFetch (ex : DIMExplorer) (api : NISApi) (currency : String) :
    Except JsError (Option MosaicParameters) × DIMExplorer × List NodeQuery :=
  let ns := replaceKeepBeforeLastColon currency
  match api.mosaicDefinitions ns with
  | .error t => (.error (.transport t), ex, [.mosaicDefinitions ns])
  | .ok response =>
      let definitions := response.data.getD []
      match definitions.find? (fun d => mosaicIdToName d.id == currency) with
      | some d =>
          let params := DIMParameters.fromMosaicDefinition d
          let newCache := objSet currency params ex.parameters.mosaicParameters
          let newRegistry := { ex.parameters with mosaicParameters := newCache }
          let ex1 : DIMExplorer := { ex with parameters := newRegistry }
          (.ok (some params), ex1, [.mosaicDefinitions ns])
      | none => (.ok none, ex, [.mosaicDefinitions ns])

/-- `getCurrency` (`dim-explorer.js:79-102`).  Line 81 evaluates
`this.mosaicParameters.hasOwnProperty(currency)`; since
`this.mosaicParameters` is `undefined` (see
`DIMExplorer.thisMosaicParameters`), the access throws a `TypeError` and the
method rejects before consulting the cache, inspecting the identifier, or
issuing any node query.  The embedded components are the result, the
explorer state after the call, and the list of node queries issued. -/
def DIMExplorer.getCurrency (ex : DIMExplorer) (api : NISApi) (currency : String) :
    Except JsError (Option MosaicParameters) × DIMExplorer × List NodeQuery :=
  match ex.thisMosaicParameters with
  | none =>
      (.error (.typeError "Cannot read property hasOwnProperty of undefined"), ex, [])
  | some cacheObj =>
      if (objGet currency cacheObj).isSome then
        (.ok (objGet currency cacheObj), ex, [])
      else
        ex.getCurrencyFetch api currency

/-- `getTotalAvailableLevyAmount` (`dim-explorer.js:133-150`): read the levy
recipient address from the registry entry of the primary asset, request the
owned-mosaics balances of that account, scan for the `dim:coin` entry and
return its quantity, or 0 when no entry matches. -/
def DIMExplorer.getTotalAvailableLevyAmount (ex : DIMExplorer) (api : NISApi) :
    Except JsError ℕ × List NodeQuery :=
  match objGet "dim:coin" ex.parameters.mosaicParameters with
  | none => (.error (.typeError "Cannot read property levy of undefined"), [])
  | some p =>
      match p.levy with
      | none => (.error (.typeError "Cannot read property recipient of undefined"), [])
      | some cfg =>
          match api.mosaicsOwned cfg.recipient with
          | .error t => (.error (.transport t), [.mosaicsOwned cfg.recipient])
          | .ok response =>
              let mosaics := response.data.getD []
              match mosaics.find? (fun b => mosaicIdToName b.mosaicId == "dim:coin") with
              | some b => (.ok b.quantity, [.mosaicsOwned cfg.recipient])
              | none => (.ok 0, [.mosaicsOwned cfg.recipient])

/-- `getTotalHoldersShareLevyAmount` (`dim-explorer.js:113-122`): fetch the
full levy pool amount and compute `Math.ceil(0.3 * amount)` in binary64. -/
def DIMExplorer.getTotalHoldersShareLevyAmount (ex : DIMExplorer) (api : NISApi) :
    Except JsError ℤ × List NodeQuery :=
  match ex.getTotalAvailableLevyAmount api with
  | (.error e, qs) => (.error e, qs)
  | (.ok hundredPercent, qs) => (.ok (holdersShareOfPool hundredPercent), qs)

/-- `getTotalCirculatingSupply` (`dim-explorer.js:159-169`): format the
creator address (the source computes it and never uses it), resolve the
identifier through `getCurrency`, return 0 when the resolution yields
nothing and the `totalSupply` field of the definition otherwise. -/
def DIMExplorer.getTotalCirculatingSupply (ex : DIMExplorer) (api : NISApi)
    (currency : String) : Except JsError ℕ × DIMExplorer × List NodeQuery :=
  let _address := toAddress ex.parameters.getCoin.creator
  match ex.getCurrency api currency with
  | (.error e, ex1, qs) => (.error e, ex1, qs)
  | (.ok none, ex1, qs) => (.ok 0, ex1, qs)
  | (.ok (some params), ex1, qs) => (.ok params.totalSupply, ex1, qs)

/-! ## Concrete collaborators for closed instances -/

/-- A balance list for the levy recipient holding one million units of
`dim:coin` (spec section 8, end-to-end scenario 1). -/
def sampleBalances : List OwnedMosaic :=
  [{ mosaicId := { namespaceId := "dim", name := "coin" }, quantity := 1000000 }]

/-- A node that answers every query: no mosaic definitions for any
namespace, and the scenario-1 balance list for every account. -/
def sampleApi : NISApi :=
  { mosaicDefinitions := fun _ => .ok { data := some [] }
    mosaicsOwned := fun _ => .ok { data := some sampleBalances } }

/-- A node whose responses carry no `data` field at all. -/
def noDataApi : NISApi :=
  { mosaicDefinitions := fun _ => .ok { data := none }
    mosaicsOwned := fun _ => .ok { data := none } }

/-- A node that fails every query with a timeout. -/
def failingApi : NISApi :=
  { mosaicDefinitions := fun _ => .error { message := "timeout" }
    mosaicsOwned := fun _ => .error { message := "timeout" } }

/-- A balance list whose `dim:coin` quantity exercises the binary64 rounding
of `Math.ceil(0.3 * amount)`: `4000000000000007` is exactly representable
(below `2^53`) yet `0.3 * 4000000000000007` rounds below its exact value. -/
def bigPoolBalances : List OwnedMosaic :=
  [{ mosaicId := { namespaceId := "dim", name := "coin" }, quantity := 4000000000000007 }]

/-- A node reporting the `bigPoolBalances` levy-recipient balance. -/
def bigPoolApi : NISApi :=
  { mosaicDefinitions := fun _ => .ok { data := some [] }
    mosaicsOwned := fun _ => .ok { data := some bigPoolBalances } }

/-- The test `currency.match(/(.*):(.*)/)` (two-segment identifier pattern):
true exactly when the string contains a colon. -/
def matchesColonPattern (s : String) : Bool := s.data.contains ':'

/-- A sequence of resolution calls: fold `getCurrency` over a list of
identifiers, threading the explorer state from call to call. -/
def runGetCurrencyCalls (api : NISApi) (ex : DIMExplorer) : List String → DIMExplorer
  | [] => ex
  | c :: rest => runGetCurrencyCalls api (ex.getCurrency api c).2.1 rest

example : (DIMExplorer.new.getTotalAvailableLevyAmount sampleApi).1 = .ok 1000000 := rfl

example : (DIMExplorer.new.getTotalAvailableLevyAmount noDataApi).1 = .ok 0 := rfl

example :
    (DIMExplorer.new.getCurrency sampleApi "dim:coin").1
      = .error (.typeError "Cannot read property hasOwnProperty of undefined") := rfl

example :
    (DIMExplorer.new.getTotalAvailableLevyAmount failingApi).1
      = .error (.transport { message := "timeout" }) := rfl

/-! Facts about the significand rounding `rte`. -/

theorem rte_intCast (n : ℤ) : rte (n : ℚ) = n := by
  unfold rte
  rw [Int.floor_intCast]
  simp

theorem rte_le (s : ℚ) : (rte s : ℚ) ≤ s + 1/2 := by
  have h0 : (⌊s⌋ : ℚ) ≤ s := Int.floor_le s
  unfold rte
  split_ifs with h1 h2 h3 <;> push_cast <;> linarith

theorem le_rte (s : ℚ) : s - 1/2 ≤ (rte s : ℚ) := by
  have h0 : s < ⌊s⌋ + 1 := Int.lt_floor_add_one s
  unfold rte
  split_ifs with h1 h2 h3 <;> push_cast <;> linarith

theorem rte_le_floor_add_one (s : ℚ) : rte s ≤ ⌊s⌋ + 1 := by
  unfold rte
  split_ifs <;> omega

theorem floor_le_rte (s : ℚ) : ⌊s⌋ ≤ rte s := by
  unfold rte
  split_ifs <;> omega

theorem rte_mono {s t : ℚ} (h : s ≤ t) : rte s ≤ rte t := by
  rcases eq_or_lt_of_le (Int.floor_mono h) with hf | hf
  · have hst : s - (⌊t⌋ : ℚ) ≤ t - (⌊t⌋ : ℚ) := by linarith
    unfold rte
    rw [hf]
    split_ifs <;> first | omega | (exfalso; linarith)
  · calc rte s ≤ ⌊s⌋ + 1 := rte_le_floor_add_one s
      _ ≤ ⌊t⌋ := by omega
      _ ≤ rte t := floor_le_rte t

theorem rte_eq_of_abs_lt {s : ℚ} {k : ℤ} (h : |s - (k : ℚ)| < 1/2) : rte s = k := by
  rw [abs_lt] at h
  obtain ⟨h1, h2⟩ := h
  rcases le_or_lt (k : ℚ) s with hk | hk
  · have hf : ⌊s⌋ = k := by
      rw [Int.floor_eq_iff]
      refine ⟨hk, ?hi⟩
      linarith
    unfold rte
    rw [hf, if_pos (by linarith : s - ((k : ℤ) : ℚ) < 1/2)]
  · have hf : ⌊s⌋ = k - 1 := by
      rw [Int.floor_eq_iff]
      constructor
      · push_cast
        linarith
      · push_cast
        linarith
    unfold rte
    rw [hf, if_neg (not_lt.mpr (by push_cast; linarith)),
      if_pos (by push_cast; linarith : (1:ℚ)/2 < s - (((k - 1) : ℤ) : ℚ))]
    omega

/-! Facts about `round64Pos` and `round64`. -/

theorem two_zpow_pos (a : ℤ) : (0:ℚ) < (2:ℚ) ^ a := zpow_pos (by norm_num) a

theorem two_zpow_mul (a b : ℤ) : (2:ℚ) ^ a * (2:ℚ) ^ b = (2:ℚ) ^ (a + b) :=
  (zpow_add₀ (by norm_num) a b).symm

theorem two_zpow_le_self {q : ℚ} (hq : 0 < q) : (2:ℚ) ^ Int.log 2 q ≤ q := by
  exact_mod_cast Int.zpow_log_le_self (b := 2) (by norm_num) hq

theorem self_lt_two_zpow (q : ℚ) : q < (2:ℚ) ^ (Int.log 2 q + 1) := by
  exact_mod_cast Int.lt_zpow_succ_log_self (b := 2) (by norm_num) q

theorem two_zpow_le_iff {q : ℚ} {x : ℤ} (hq : 0 < q) :
    (2:ℚ) ^ x ≤ q ↔ x ≤ Int.log 2 q := by
  rw [← Int.zpow_le_iff_le_log (b := 2) (by norm_num) hq]
  norm_num

theorem intLog_eq_of_bounds {q : ℚ} {e : ℤ} (hq : 0 < q)
    (h1 : (2:ℚ) ^ e ≤ q) (h2 : q < (2:ℚ) ^ (e + 1)) : Int.log 2 q = e := by
  have ha : e ≤ Int.log 2 q := (two_zpow_le_iff hq).mp h1
  have hb : ¬ (e + 1 ≤ Int.log 2 q) := by
    intro hcon
    have := ((two_zpow_le_iff hq).mpr hcon)
    linarith
  omega

theorem round64Pos_eq_of {q : ℚ} {e k : ℤ} (hq : 0 < q)
    (h1 : (2:ℚ) ^ e ≤ q) (h2 : q < (2:ℚ) ^ (e + 1))
    (hk : |q * (2:ℚ) ^ ((52:ℤ) - e) - (k : ℚ)| < 1/2) :
    round64Pos q = (k : ℚ) * (2:ℚ) ^ (e - (52:ℤ)) := by
  unfold round64Pos
  rw [intLog_eq_of_bounds hq h1 h2, rte_eq_of_abs_lt hk]

theorem round64Pos_le {q : ℚ} (hq : 0 < q) : round64Pos q ≤ q + q / 2 ^ 53 := by
  unfold round64Pos
  set e := Int.log 2 q with he
  have h1 : (rte (q * (2:ℚ) ^ ((52:ℤ) - e)) : ℚ) * (2:ℚ) ^ (e - (52:ℤ))
      ≤ (q * (2:ℚ) ^ ((52:ℤ) - e) + 1/2) * (2:ℚ) ^ (e - (52:ℤ)) :=
    mul_le_mul_of_nonneg_right (rte_le _) (two_zpow_pos _).le
  have hkey : (q * (2:ℚ) ^ ((52:ℤ) - e) + 1/2) * (2:ℚ) ^ (e - (52:ℤ))
      = q + (2:ℚ) ^ (e - (53:ℤ)) := by
    rw [add_mul, mul_assoc, two_zpow_mul]
    have e0 : (52:ℤ) - e + (e - 52) = 0 := by ring
    rw [e0, zpow_zero, mul_one]
    have h12 : (1/2 : ℚ) = (2:ℚ) ^ (-1 : ℤ) := by norm_num
    rw [h12, two_zpow_mul]
    have e1 : (-1 : ℤ) + (e - 52) = e - 53 := by ring
    rw [e1]
  have hbound : (2:ℚ) ^ (e - (53:ℤ)) ≤ q / 2 ^ 53 := by
    have hlog : (2:ℚ) ^ e ≤ q := two_zpow_le_self hq
    have hz : (2:ℚ) ^ (e - (53:ℤ)) = (2:ℚ) ^ e / (2:ℚ) ^ (53:ℤ) :=
      zpow_sub₀ (by norm_num) e 53
    have h53 : (2:ℚ) ^ (53:ℤ) = (2:ℚ) ^ (53:ℕ) := by norm_num
    rw [hz, h53]
    gcongr
  calc (rte (q * (2:ℚ) ^ ((52:ℤ) - e)) : ℚ) * (2:ℚ) ^ (e - (52:ℤ))
      ≤ q + (2:ℚ) ^ (e - (53:ℤ)) := by rw [← hkey]; exact h1
    _ ≤ q + q / 2 ^ 53 := by linarith

theorem le_round64Pos {q : ℚ} (hq : 0 < q) : q - q / 2 ^ 53 ≤ round64Pos q := by
  unfold round64Pos
  set e := Int.log 2 q with he
  have h1 : (q * (2:ℚ) ^ ((52:ℤ) - e) - 1/2) * (2:ℚ) ^ (e - (52:ℤ))
      ≤ (rte (q * (2:ℚ) ^ ((52:ℤ) - e)) : ℚ) * (2:ℚ) ^ (e - (52:ℤ)) :=
    mul_le_mul_of_nonneg_right (le_rte _) (two_zpow_pos _).le
  have hkey : (q * (2:ℚ) ^ ((52:ℤ) - e) - 1/2) * (2:ℚ) ^ (e - (52:ℤ))
      = q - (2:ℚ) ^ (e - (53:ℤ)) := by
    rw [sub_mul, mul_assoc, two_zpow_mul]
    have e0 : (52:ℤ) - e + (e - 52) = 0 := by ring
    rw [e0, zpow_zero, mul_one]
    have h12 : (1/2 : ℚ) = (2:ℚ) ^ (-1 : ℤ) := by norm_num
    rw [h12, two_zpow_mul]
    have e1 : (-1 : ℤ) + (e - 52) = e - 53 := by ring
    rw [e1]
  have hbound : (2:ℚ) ^ (e - (53:ℤ)) ≤ q / 2 ^ 53 := by
    have hlog : (2:ℚ) ^ e ≤ q := two_zpow_le_self hq
    have hz : (2:ℚ) ^ (e - (53:ℤ)) = (2:ℚ) ^ e / (2:ℚ) ^ (53:ℤ) :=
      zpow_sub₀ (by norm_num) e 53
    have h53 : (2:ℚ) ^ (53:ℤ) = (2:ℚ) ^ (53:ℕ) := by norm_num
    rw [hz, h53]
    gcongr
  calc q - q / 2 ^ 53 ≤ q - (2:ℚ) ^ (e - (53:ℤ)) := by linarith
    _ ≤ (rte (q * (2:ℚ) ^ ((52:ℤ) - e)) : ℚ) * (2:ℚ) ^ (e - (52:ℤ)) := by
        rw [← hkey]; exact h1

theorem round64Pos_le_two_zpow {q : ℚ} (_hq : 0 < q) :
    round64Pos q ≤ (2:ℚ) ^ (Int.log 2 q + 1) := by
  unfold round64Pos
  set e := Int.log 2 q with he
  have hs : q * (2:ℚ) ^ ((52:ℤ) - e) < (2:ℚ) ^ (53:ℤ) := by
    calc q * (2:ℚ) ^ ((52:ℤ) - e) < (2:ℚ) ^ (e + 1) * (2:ℚ) ^ ((52:ℤ) - e) :=
        mul_lt_mul_of_pos_right (self_lt_two_zpow q) (two_zpow_pos _)
      _ = (2:ℚ) ^ (53:ℤ) := by
        rw [two_zpow_mul]
        have e0 : e + 1 + ((52:ℤ) - e) = 53 := by ring
        rw [e0]
  have hcast : ((2 ^ 53 : ℤ) : ℚ) = (2:ℚ) ^ (53:ℤ) := by norm_num
  have hrte : rte (q * (2:ℚ) ^ ((52:ℤ) - e)) ≤ 2 ^ 53 := by
    have hlt : (rte (q * (2:ℚ) ^ ((52:ℤ) - e)) : ℚ) < ((2 ^ 53 : ℤ) : ℚ) + 1 := by
      have := rte_le (q * (2:ℚ) ^ ((52:ℤ) - e))
      rw [hcast]
      linarith
    have : rte (q * (2:ℚ) ^ ((52:ℤ) - e)) < 2 ^ 53 + 1 := by exact_mod_cast hlt
    omega
  calc (rte (q * (2:ℚ) ^ ((52:ℤ) - e)) : ℚ) * (2:ℚ) ^ (e - (52:ℤ))
      ≤ ((2 ^ 53 : ℤ) : ℚ) * (2:ℚ) ^ (e - (52:ℤ)) :=
        mul_le_mul_of_nonneg_right (by exact_mod_cast hrte) (two_zpow_pos _).le
    _ = (2:ℚ) ^ (e + 1) := by
        rw [hcast, two_zpow_mul]
        have e0 : (53:ℤ) + (e - 52) = e + 1 := by ring
        rw [e0]

theorem two_zpow_le_round64Pos {q : ℚ} (hq : 0 < q) :
    (2:ℚ) ^ Int.log 2 q ≤ round64Pos q := by
  unfold round64Pos
  set e := Int.log 2 q with he
  have hcast : ((2 ^ 52 : ℤ) : ℚ) = (2:ℚ) ^ (52:ℤ) := by norm_num
  have hsplit : (2:ℚ) ^ (52:ℤ) = (2:ℚ) ^ e * (2:ℚ) ^ ((52:ℤ) - e) := by
    rw [two_zpow_mul]
    have e0 : e + ((52:ℤ) - e) = 52 := by ring
    rw [e0]
  have hs : (2:ℚ) ^ (52:ℤ) ≤ q * (2:ℚ) ^ ((52:ℤ) - e) := by
    rw [hsplit]
    exact mul_le_mul_of_nonneg_right (two_zpow_le_self hq) (two_zpow_pos _).le
  have hrte : 2 ^ 52 ≤ rte (q * (2:ℚ) ^ ((52:ℤ) - e)) := by
    have hgt : ((2 ^ 52 : ℤ) : ℚ) - 1 < (rte (q * (2:ℚ) ^ ((52:ℤ) - e)) : ℚ) := by
      have := le_rte (q * (2:ℚ) ^ ((52:ℤ) - e))
      rw [hcast]
      linarith
    have : (2 ^ 52 : ℤ) - 1 < rte (q * (2:ℚ) ^ ((52:ℤ) - e)) := by exact_mod_cast hgt
    omega
  have hfold : (2:ℚ) ^ e = ((2 ^ 52 : ℤ) : ℚ) * (2:ℚ) ^ (e - (52:ℤ)) := by
    rw [hcast, two_zpow_mul]
    have e0 : (52:ℤ) + (e - 52) = e := by ring
    rw [e0]
  rw [hfold]
  exact mul_le_mul_of_nonneg_right (by exact_mod_cast hrte) (two_zpow_pos _).le

theorem round64Pos_mono {q r : ℚ} (hq : 0 < q) (hqr : q ≤ r) :
    round64Pos q ≤ round64Pos r := by
  have hr : 0 < r := hq.trans_le hqr
  rcases eq_or_lt_of_le (Int.log_mono_right hq hqr) with heq | hlt
  · unfold round64Pos
    rw [← heq]
    exact mul_le_mul_of_nonneg_right
      (by exact_mod_cast rte_mono (mul_le_mul_of_nonneg_right hqr (two_zpow_pos _).le))
      (two_zpow_pos _).le
  · calc round64Pos q ≤ (2:ℚ) ^ (Int.log 2 q + 1) := round64Pos_le_two_zpow hq
      _ ≤ (2:ℚ) ^ Int.log 2 r := zpow_le_zpow_right₀ (by norm_num) (by omega)
      _ ≤ round64Pos r := two_zpow_le_round64Pos hr

theorem round64Pos_intCast {k : ℤ} (h0 : 0 < k) (h53 : k < 2 ^ 53) :
    round64Pos (k : ℚ) = (k : ℚ) := by
  have hq : (0:ℚ) < (k:ℚ) := by exact_mod_cast h0
  unfold round64Pos
  set e := Int.log 2 (k:ℚ) with he
  have he0 : 0 ≤ e := by
    rw [he]
    refine (two_zpow_le_iff hq).mp ?lo
    rw [zpow_zero]
    exact_mod_cast h0
  have he52 : e ≤ 52 := by
    by_contra hcon
    push_neg at hcon
    have h1 : (2:ℚ) ^ (53:ℤ) ≤ (2:ℚ) ^ e := zpow_le_zpow_right₀ (by norm_num) (by omega)
    have h2 : (2:ℚ) ^ e ≤ (k:ℚ) := two_zpow_le_self hq
    have h3 : ((2 ^ 53 : ℤ) : ℚ) ≤ (k:ℚ) := by
      have hcst : ((2 ^ 53 : ℤ) : ℚ) = (2:ℚ) ^ (53:ℤ) := by norm_num
      rw [hcst]
      exact h1.trans h2
    have : (2 ^ 53 : ℤ) ≤ k := by exact_mod_cast h3
    omega
  set m : ℕ := ((52:ℤ) - e).toNat with hm
  have hmz : ((m:ℕ) : ℤ) = 52 - e := Int.toNat_of_nonneg (by omega)
  have h2m : (2:ℚ) ^ ((52:ℤ) - e) = ((2 ^ m : ℤ) : ℚ) := by
    rw [← hmz, zpow_natCast]
    push_cast
    ring
  rw [h2m]
  have hprod : (k:ℚ) * ((2 ^ m : ℤ) : ℚ) = ((k * 2 ^ m : ℤ) : ℚ) := by
    push_cast
    ring
  rw [hprod, rte_intCast]
  push_cast
  have h2mq : (2:ℚ) ^ (m:ℕ) = (2:ℚ) ^ ((52:ℤ) - e) := by
    rw [← hmz, zpow_natCast]
  rw [h2mq, mul_assoc, two_zpow_mul]
  have e0 : (52:ℤ) - e + (e - 52) = 0 := by ring
  rw [e0, zpow_zero, mul_one]

theorem round64_zero : round64 0 = 0 := by
  unfold round64
  norm_num

theorem round64_of_pos {q : ℚ} (hq : 0 < q) : round64 q = round64Pos q := by
  unfold round64
  rw [if_neg (by linarith), if_neg (by linarith)]

theorem round64_nonneg {q : ℚ} (hq : 0 ≤ q) : 0 ≤ round64 q := by
  rcases eq_or_lt_of_le hq with h0 | h0
  · rw [← h0, round64_zero]
  · rw [round64_of_pos h0]
    have h1 := le_round64Pos h0
    have h2 : q / 2 ^ 53 ≤ q := div_le_self h0.le (by norm_num)
    linarith

theorem round64_mono {q r : ℚ} (hq : 0 ≤ q) (h : q ≤ r) : round64 q ≤ round64 r := by
  rcases eq_or_lt_of_le hq with h0 | h0
  · rw [← h0, round64_zero]
    exact round64_nonneg (by linarith)
  · rw [round64_of_pos h0, round64_of_pos (h0.trans_le h)]
    exact round64Pos_mono h0 h

theorem round64_le {q : ℚ} (hq : 0 ≤ q) : round64 q ≤ q + q / 2 ^ 53 := by
  rcases eq_or_lt_of_le hq with h0 | h0
  · rw [← h0, round64_zero]
    norm_num
  · rw [round64_of_pos h0]
    exact round64Pos_le h0

theorem le_round64 {q : ℚ} (hq : 0 ≤ q) : q - q / 2 ^ 53 ≤ round64 q := by
  rcases eq_or_lt_of_le hq with h0 | h0
  · rw [← h0, round64_zero]
    norm_num
  · rw [round64_of_pos h0]
    exact le_round64Pos h0

theorem round64_natCast {n : ℕ} (h53 : n < 2 ^ 53) : round64 (n : ℚ) = (n : ℚ) := by
  rcases Nat.eq_zero_or_pos n with h0 | h0
  · rw [h0]
    push_cast
    exact round64_zero
  · have hpos : (0:ℚ) < (n:ℚ) := by exact_mod_cast h0
    rw [round64_of_pos hpos]
    have := round64Pos_intCast (k := (n:ℤ)) (by exact_mod_cast h0) (by exact_mod_cast h53)
    exact_mod_cast this

theorem round64_intCast {k : ℤ} (h0 : 0 ≤ k) (h53 : k < 2 ^ 53) :
    round64 (k : ℚ) = (k : ℚ) := by
  rcases eq_or_lt_of_le h0 with h | h
  · rw [← h]
    push_cast
    exact round64_zero
  · rw [round64_of_pos (by exact_mod_cast h)]
    exact round64Pos_intCast h h53

theorem jsPointThree_eq : jsPointThree = 5404319552844595 / 2 ^ 54 := by
  unfold jsPointThree
  rw [round64_of_pos (by norm_num)]
  have h := round64Pos_eq_of (q := 3/10) (e := -2) (k := 5404319552844595)
    (by norm_num) (by norm_num) (by norm_num)
    (by rw [abs_lt]; constructor <;> norm_num)
  rw [h]
  norm_num

theorem round64_bigProduct :
    round64 (jsPointThree * ((4000000000000007 : ℕ) : ℚ)) = 1200000000000002 := by
  rw [jsPointThree_eq]
  rw [round64_of_pos (by norm_num)]
  have h := round64Pos_eq_of
    (q := 5404319552844595 / 2 ^ 54 * ((4000000000000007 : ℕ) : ℚ))
    (e := 50) (k := 4800000000000008)
    (by norm_num) (by norm_num) (by norm_num)
    (by rw [abs_lt]; constructor <;> norm_num)
  rw [h]
  norm_num

theorem jsPointThree_nonneg : 0 ≤ jsPointThree := by
  rw [jsPointThree_eq]
  norm_num

theorem jsPointThree_le : jsPointThree ≤ 3/10 := by
  rw [jsPointThree_eq]
  norm_num

theorem holdersShareOfPool_exact {L : ℕ} (hL : L < 2 ^ 51) :
    holdersShareOfPool L = ⌈(3 * L : ℚ) / 10⌉ := by
  rcases Nat.eq_zero_or_pos L with h0 | h0
  · subst h0
    unfold holdersShareOfPool jsMul jsCeil
    push_cast
    rw [round64_zero, mul_zero, round64_zero]
    norm_num
  · unfold holdersShareOfPool jsMul jsCeil
    have hLq : (0:ℚ) < (L:ℚ) := by exact_mod_cast h0
    have hL51 : (L:ℚ) < 2 ^ 51 := by
      have : ((2:ℕ) ^ 51 : ℚ) = 2 ^ 51 := by norm_num
      rw [← this]
      exact_mod_cast hL
    have hL53 : L < 2 ^ 53 := by
      have h2 : (2:ℕ) ^ 51 < 2 ^ 53 := by norm_num
      omega
    rw [round64_natCast hL53, jsPointThree_eq]
    set k : ℤ := ⌈(3 * (L:ℚ)) / 10⌉ with hk
    have hTle : (3 * (L:ℚ)) / 10 ≤ (k:ℚ) := Int.le_ceil _
    have hkm1 : (k:ℚ) - 1 < (3 * (L:ℚ)) / 10 := by
      have := Int.ceil_lt_add_one ((3 * (L:ℚ)) / 10)
      rw [← hk] at this
      linarith
    have hstep : (k:ℚ) - 1 + 1/10 ≤ (3 * (L:ℚ)) / 10 := by
      have h10 : (10:ℚ) * ((k:ℚ) - 1) < 3 * (L:ℚ) := by linarith
      have hz : 10 * (k - 1) < 3 * (L:ℤ) := by exact_mod_cast h10
      have hz1 : 10 * (k - 1) + 1 ≤ 3 * (L:ℤ) := by omega
      have hq1 : (10:ℚ) * ((k:ℚ) - 1) + 1 ≤ 3 * (L:ℚ) := by exact_mod_cast hz1
      linarith
    have hk0 : 0 ≤ k := Int.ceil_nonneg (by positivity)
    have hk53 : k < 2 ^ 53 := by
      have ha : (k:ℚ) < 3 * (L:ℚ) / 10 + 1 := by linarith
      have hb : (k:ℚ) < 2 ^ 51 + 1 := by linarith
      have hkz : k < 2 ^ 51 + 1 := by exact_mod_cast hb
      have hc : (2:ℤ) ^ 51 + 1 ≤ 2 ^ 53 := by norm_num
      omega
    have hx0 : (0:ℚ) < 5404319552844595 / 2 ^ 54 * (L:ℚ) := by positivity
    have hxT : 5404319552844595 / 2 ^ 54 * (L:ℚ) ≤ (3 * (L:ℚ)) / 10 := by
      have h1 : (5404319552844595 / 2 ^ 54 : ℚ) * (L:ℚ) ≤ (3/10) * (L:ℚ) :=
        mul_le_mul_of_nonneg_right (by norm_num) hLq.le
      linarith
    have hupper : round64 (5404319552844595 / 2 ^ 54 * (L:ℚ)) ≤ (k:ℚ) := by
      calc round64 (5404319552844595 / 2 ^ 54 * (L:ℚ)) ≤ round64 (k:ℚ) :=
          round64_mono hx0.le (by linarith)
        _ = (k:ℚ) := round64_intCast hk0 hk53
    have hrel := le_round64 hx0.le
    have hlow : (3 * (L:ℚ)) / 10 - 1/10
        < 5404319552844595 / 2 ^ 54 * (L:ℚ)
          - (5404319552844595 / 2 ^ 54 * (L:ℚ)) / 2 ^ 53 := by
      linarith
    have hlower : (k:ℚ) - 1 < round64 (5404319552844595 / 2 ^ 54 * (L:ℚ)) := by
      linarith
    rw [Int.ceil_eq_iff.mpr ⟨by exact_mod_cast hlower, hupper⟩]

theorem holdersShareOfPool_nonneg (L : ℕ) : 0 ≤ holdersShareOfPool L := by
  unfold holdersShareOfPool jsMul jsCeil
  have h1 : (0:ℚ) ≤ round64 (L:ℚ) := round64_nonneg (by positivity)
  have h2 : (0:ℚ) ≤ jsPointThree * round64 (L:ℚ) := mul_nonneg jsPointThree_nonneg h1
  exact Int.ceil_nonneg (round64_nonneg h2)

theorem holdersShareOfPool_le_pool (L : ℕ) : holdersShareOfPool L ≤ (L:ℤ) := by
  unfold holdersShareOfPool jsMul jsCeil
  rw [jsPointThree_eq]
  have hL0 : (0:ℚ) ≤ (L:ℚ) := by positivity
  have hy_le : round64 (L:ℚ) ≤ (L:ℚ) + (L:ℚ) / 2 ^ 53 := round64_le hL0
  have hy0 : (0:ℚ) ≤ round64 (L:ℚ) := round64_nonneg hL0
  have hx0 : (0:ℚ) ≤ 5404319552844595 / 2 ^ 54 * round64 (L:ℚ) :=
    mul_nonneg (by norm_num) hy0
  have hx_le : 5404319552844595 / 2 ^ 54 * round64 (L:ℚ)
      ≤ 5404319552844595 / 2 ^ 54 * ((L:ℚ) + (L:ℚ) / 2 ^ 53) :=
    mul_le_mul_of_nonneg_left hy_le (by norm_num)
  have hr_le := round64_le hx0
  rw [Int.ceil_le]
  push_cast
  linarith

theorem holdersShareOfPool_mono {L1 L2 : ℕ} (h : L1 ≤ L2) :
    holdersShareOfPool L1 ≤ holdersShareOfPool L2 := by
  unfold holdersShareOfPool jsMul jsCeil
  have h0 : (0:ℚ) ≤ (L1:ℚ) := by positivity
  have hq : (L1:ℚ) ≤ (L2:ℚ) := by exact_mod_cast h
  have h1 : round64 (L1:ℚ) ≤ round64 (L2:ℚ) := round64_mono h0 hq
  have h10 : (0:ℚ) ≤ round64 (L1:ℚ) := round64_nonneg h0
  have h2 : jsPointThree * round64 (L1:ℚ) ≤ jsPointThree * round64 (L2:ℚ) :=
    mul_le_mul_of_nonneg_left h1 jsPointThree_nonneg
  have h20 : (0:ℚ) ≤ jsPointThree * round64 (L1:ℚ) := mul_nonneg jsPointThree_nonneg h10
  exact Int.ceil_mono (round64_mono h20 h2)

theorem holdersShareOfPool_bigPool :
    holdersShareOfPool 4000000000000007 = 1200000000000002 := by
  unfold holdersShareOfPool jsMul jsCeil
  rw [round64_natCast (by norm_num), round64_bigProduct]
  have hcast : (1200000000000002 : ℚ) = ((1200000000000002 : ℤ) : ℚ) := by norm_num
  rw [hcast, Int.ceil_intCast]

/-! Helper facts about the embedded methods. -/

/-- Every `getCurrency` call returns the explorer state unchanged: the
line-81 `TypeError` fires before the cache store at `dim-explorer.js:98` can
run. -/
theorem getCurrency_preserves_explorer (ex : DIMExplorer) (api : NISApi) (c : String) :
    (ex.getCurrency api c).2.1 = ex := rfl

example : matchesColonPattern "dimcoin" = false := by decide

example : matchesColonPattern "dim:coin" = true := by decide

/-! Claim C1: cache idempotence of resolution. -/

/-- **C1.** The claim: resolving the same identifier twice returns the
identical cached definition and triggers exactly one node query; a cache hit
returns immediately with no network call.  The code does not do this: the
cache test at `dim-explorer.js:81` reads `this.mosaicParameters`, a property
the `DIMExplorer` constructor never sets (the cache lives at
`this.parameters.mosaicParameters`), so even with `dim:coin` present in the
registry cache of a fresh explorer, the first call and the repeated call
both reject with the same `TypeError`, return no definition, and issue no
node query at all. -/
theorem C1_cache_hit_throws_type_error :
    objGet "dim:coin" DIMExplorer.new.parameters.mosaicParameters = some dimCoinParameters
    ∧ (DIMExplorer.new.getCurrency sampleApi "dim:coin").1
        = .error (.typeError "Cannot read property hasOwnProperty of undefined")
    ∧ (DIMExplorer.new.getCurrency sampleApi "dim:coin").2.2 = []
    ∧ (((DIMExplorer.new.getCurrency sampleApi "dim:coin").2.1.getCurrency
          sampleApi "dim:coin").1
        = .error (.typeError "Cannot read property hasOwnProperty of undefined")) :=
  ⟨rfl, rfl, rfl, rfl⟩

/-! Claim C2: the holder share arithmetic. -/

/-- **C2 counterexample.**  For the pool amount `4000000000000007` (a valid
`dim:coin` quantity, exactly representable in binary64) the method returns
`1200000000000002`, while `ceil(0.30 × L)` with `0.30` an exact rational is
`1200000000000003`; the returned value even lies below `0.30 × L`.  The
claimed identity fails because `Math.ceil(0.3 * L)` computes in binary64:
the literal `0.3` is slightly below `3/10`, and for pool amounts of this
size the product rounds below the exact integer-plus-a-tenth value. -/
theorem C2_share_not_exact_ceil :
    (DIMExplorer.new.getTotalAvailableLevyAmount bigPoolApi).1 = .ok 4000000000000007
    ∧ (DIMExplorer.new.getTotalHoldersShareLevyAmount bigPoolApi).1 = .ok 1200000000000002
    ∧ ⌈(3 * ((4000000000000007 : ℕ) : ℚ)) / 10⌉ = 1200000000000003
    ∧ (DIMExplorer.new.getTotalHoldersShareLevyAmount bigPoolApi).1
        ≠ .ok ⌈(3 * ((4000000000000007 : ℕ) : ℚ)) / 10⌉
    ∧ (1200000000000002 : ℚ) < 3/10 * ((4000000000000007 : ℕ) : ℚ) := by
  have hceil : ⌈(3 * ((4000000000000007 : ℕ) : ℚ)) / 10⌉ = (1200000000000003 : ℤ) := by
    rw [Int.ceil_eq_iff]
    constructor <;> norm_num
  have hshare : (DIMExplorer.new.getTotalHoldersShareLevyAmount bigPoolApi).1
      = .ok (holdersShareOfPool 4000000000000007) := rfl
  refine ⟨rfl, ?val, hceil, ?ne, by norm_num⟩
  case val => rw [hshare, holdersShareOfPool_bigPool]
  case ne =>
    rw [hshare, holdersShareOfPool_bigPool, hceil]
    intro h
    have := Except.ok.inj h
    omega

/-- **C2 (amended).**  Whenever `getTotalAvailableLevyAmount` reports a pool
amount `L < 2^51`, `getTotalHoldersShareLevyAmount` returns exactly
`ceil(0.30 × L)` with `0.30` an exact rational, that value satisfies
`result ≥ 0.30 × L` and `result < 0.30 × L + 1`, and for `L = 7` the share
is `3`.  (For larger pool amounts the binary64 evaluation of
`Math.ceil(0.3 * L)` can fall below the exact ceiling, see the
counterexample at `L = 4000000000000007`.) -/
theorem C2_amended_share_exact_below_2pow51 (ex : DIMExplorer) (api : NISApi) (L : ℕ)
    (hAvail : (ex.getTotalAvailableLevyAmount api).1 = .ok L)
    (hL : L < 2 ^ 51) :
    (ex.getTotalHoldersShareLevyAmount api).1 = .ok ⌈(3 * L : ℚ) / 10⌉
    ∧ (3/10 : ℚ) * L ≤ (⌈(3 * L : ℚ) / 10⌉ : ℚ)
    ∧ ((⌈(3 * L : ℚ) / 10⌉ : ℚ) < 3/10 * L + 1)
    ∧ holdersShareOfPool 7 = 3 := by
  have hform : (3 * (L:ℚ)) / 10 = 3/10 * (L:ℚ) := by ring
  refine ⟨?val, ?lo, ?hi, ?seven⟩
  case val =>
    rcases hP : ex.getTotalAvailableLevyAmount api with ⟨r, qs⟩
    rw [hP] at hAvail
    simp only at hAvail
    subst hAvail
    unfold DIMExplorer.getTotalHoldersShareLevyAmount
    rw [hP]
    dsimp only
    rw [holdersShareOfPool_exact hL]
  case lo =>
    have := Int.le_ceil ((3 * (L:ℚ)) / 10)
    linarith
  case hi =>
    have := Int.ceil_lt_add_one ((3 * (L:ℚ)) / 10)
    linarith
  case seven =>
    rw [holdersShareOfPool_exact (by norm_num)]
    rw [Int.ceil_eq_iff]
    constructor <;> norm_num

/-- **C2 witness.**  Spec scenario 1: pool amount 1000000 gives holder share
`ceil(300000) = 300000`. -/
theorem C2_amended_witness :
    (DIMExplorer.new.getTotalHoldersShareLevyAmount sampleApi).1
      = .ok ⌈(3 * ((1000000 : ℕ) : ℚ)) / 10⌉
    ∧ ⌈(3 * ((1000000 : ℕ) : ℚ)) / 10⌉ = 300000 := by
  refine ⟨(C2_amended_share_exact_below_2pow51 DIMExplorer.new sampleApi 1000000
    rfl (by norm_num)).1, ?val⟩
  rw [Int.ceil_eq_iff]
  constructor <;> norm_num

/-! Claim C3: the levy pool query. -/

/-- **C3.**  With the primary-asset definition present in the registry
(`dim:coin` mapped to parameters `p` holding a levy configuration `cfg`, as
in a fresh registry), `getTotalAvailableLevyAmount` issues exactly one node
query, for the owned balances of the levy recipient address `cfg.recipient`;
when the returned balance list holds no entry named `dim:coin` (the empty
list included) it returns 0 rather than failing, and when the list holds
such an entry it returns the quantity of the first one. -/
theorem C3_total_available_levy (ex : DIMExplorer) (api : NISApi)
    (p : MosaicParameters) (cfg : LevyConfig)
    (hp : objGet "dim:coin" ex.parameters.mosaicParameters = some p)
    (hl : p.levy = some cfg)
    (list : List OwnedMosaic)
    (hresp : api.mosaicsOwned cfg.recipient = .ok { data := some list }) :
    (ex.getTotalAvailableLevyAmount api).2 = [NodeQuery.mosaicsOwned cfg.recipient]
    ∧ ((∀ b ∈ list, mosaicIdToName b.mosaicId ≠ "dim:coin") →
        (ex.getTotalAvailableLevyAmount api).1 = .ok 0)
    ∧ (∀ b, list.find? (fun o => mosaicIdToName o.mosaicId == "dim:coin") = some b →
        (ex.getTotalAvailableLevyAmount api).1 = .ok b.quantity) := by
  have hred : ex.getTotalAvailableLevyAmount api
      = (match list.find? (fun o => mosaicIdToName o.mosaicId == "dim:coin") with
          | some b => (Except.ok b.quantity, [NodeQuery.mosaicsOwned cfg.recipient])
          | none => (Except.ok 0, [NodeQuery.mosaicsOwned cfg.recipient])) := by
    unfold DIMExplorer.getTotalAvailableLevyAmount
    rw [hp]
    dsimp only
    rw [hl]
    dsimp only
    rw [hresp]
    rfl
  refine ⟨?queries, ?noentry, ?entry⟩
  case queries =>
    rw [hred]
    cases list.find? (fun o => mosaicIdToName o.mosaicId == "dim:coin") <;> rfl
  case noentry =>
    intro hnone
    have hfind : list.find? (fun o => mosaicIdToName o.mosaicId == "dim:coin") = none := by
      rw [List.find?_eq_none]
      intro x hx
      simp only [beq_iff_eq]
      exact hnone x hx
    rw [hred, hfind]
  case entry =>
    intro b hb
    rw [hred, hb]

/-- **C3 witness.**  Spec scenario 1: the levy recipient holds one balance
entry for `dim:coin` with quantity 1000000, and the query returns it, having
asked the node once for the balances of the registry levy recipient. -/
theorem C3_witness :
    (DIMExplorer.new.getTotalAvailableLevyAmount sampleApi).1 = .ok 1000000
    ∧ (DIMExplorer.new.getTotalAvailableLevyAmount sampleApi).2
        = [NodeQuery.mosaicsOwned dimCoinLevy.recipient] := by
  have h := C3_total_available_levy DIMExplorer.new sampleApi dimCoinParameters
    dimCoinLevy rfl rfl sampleBalances rfl
  exact ⟨h.2.2 { mosaicId := { namespaceId := "dim", name := "coin" }, quantity := 1000000 }
    rfl, h.1⟩

/-! Claim C4: the circulating-supply query. -/

/-- **C4.**  The claim: `getTotalCirculatingSupply` returns 0 when the
resolution yields no definition and the totalSupply field verbatim
otherwise.  Instead every call rejects: the resolution it delegates to
(`getCurrency`, `dim-explorer.js:164`) throws the line-81 `TypeError` on
every input, so neither the 0 branch nor the totalSupply branch is ever
reached (here shown for `dim:token`, which the node reports no definition
for, so the claim demands 0). -/
theorem C4_total_supply_rejects :
    (DIMExplorer.new.getTotalCirculatingSupply sampleApi "dim:token").1
      = .error (.typeError "Cannot read property hasOwnProperty of undefined")
    ∧ (DIMExplorer.new.getTotalCirculatingSupply sampleApi "dim:token").1 ≠ .ok 0 :=
  ⟨rfl, fun h => Except.noConfusion h⟩

/-! Claim C5: malformed identifiers and the network. -/

/-- **C5.**  For every identifier that does not match the two-segment
`namespace:mosaic` pattern (no colon, e.g. `dimcoin`), `getCurrency` fails
synchronously before any network call, and no node query is issued.  This
holds, though degenerately: the resolution path performs no pattern check of
its own (the `replace`-based split at `dim-explorer.js:85-86` passes a
colon-less string through unchanged); it is the line-81 `TypeError` (see C1)
that stops every call, malformed or not, before the network step, so in
particular no malformed identifier ever reaches the node. -/
theorem C5_malformed_never_queried (ex : DIMExplorer) (api : NISApi)
    (currency : String) (_hbad : matchesColonPattern currency = false) :
    (∃ msg, (ex.getCurrency api currency).1 = .error (.typeError msg))
    ∧ (ex.getCurrency api currency).2.2 = [] :=
  ⟨⟨"Cannot read property hasOwnProperty of undefined", rfl⟩, rfl⟩

/-- **C5 witness.**  The spec example `dimcoin`: no colon, the call fails
synchronously, no node query. -/
theorem C5_witness :
    matchesColonPattern "dimcoin" = false
    ∧ ((∃ msg, (DIMExplorer.new.getCurrency sampleApi "dimcoin").1
          = .error (.typeError msg))
        ∧ (DIMExplorer.new.getCurrency sampleApi "dimcoin").2.2 = []) :=
  ⟨by decide, C5_malformed_never_queried DIMExplorer.new sampleApi "dimcoin" (by decide)⟩

/-! Claim C6: the no-match outcome of resolution. -/

/-- **C6.**  The claim: when the node returns a definitions list in which no
formatted name equals the requested identifier, `getCurrency` completes
normally with the empty result (`null`).  The code never reaches the scan at
`dim-explorer.js:92-101`: the line-81 `TypeError` (see C1) rejects the call
first.  Here `sampleApi` answers the namespace query with an empty
definitions list (so no name can match `dim:token`), yet the call rejects
with the `TypeError` instead of returning `.ok none`. -/
theorem C6_no_match_rejects_instead_of_null :
    (DIMExplorer.new.getCurrency sampleApi "dim:token").1
      = .error (.typeError "Cannot read property hasOwnProperty of undefined")
    ∧ (DIMExplorer.new.getCurrency sampleApi "dim:token").1 ≠ .ok none :=
  ⟨rfl, fun h => Except.noConfusion h⟩

/-! Claim C7: transport failures propagate. -/

/-- **C7.**  With the primary-asset registry entry present (as in a fresh
registry), a transport failure of the balance query propagates unchanged
through `getTotalAvailableLevyAmount` and `getTotalHoldersShareLevyAmount`:
neither catches it, retries, nor maps it to the not-found values 0 or
`null`.  `getCurrency` and `getTotalCirculatingSupply` never invoke the
node-query collaborator at all (they reject at the line-81 `TypeError`
before the request, see C1), so no transport failure can arise during them,
and in particular none is ever conflated with a not-found result. -/
theorem C7_transport_failures_propagate (ex : DIMExplorer) (api : NISApi)
    (t : TransportError) (p : MosaicParameters) (cfg : LevyConfig)
    (hp : objGet "dim:coin" ex.parameters.mosaicParameters = some p)
    (hl : p.levy = some cfg)
    (hfail : api.mosaicsOwned cfg.recipient = .error t) :
    (ex.getTotalAvailableLevyAmount api).1 = .error (.transport t)
    ∧ (ex.getTotalHoldersShareLevyAmount api).1 = .error (.transport t)
    ∧ (∀ api2 c, (ex.getCurrency api2 c).2.2 = [])
    ∧ (∀ api2 c, (ex.getTotalCirculatingSupply api2 c).2.2 = []) := by
  have h1 : ex.getTotalAvailableLevyAmount api
      = (.error (.transport t), [NodeQuery.mosaicsOwned cfg.recipient]) := by
    unfold DIMExplorer.getTotalAvailableLevyAmount
    rw [hp]
    dsimp only
    rw [hl]
    dsimp only
    rw [hfail]
  refine ⟨by rw [h1], ?share, fun api2 c => rfl, fun api2 c => rfl⟩
  unfold DIMExplorer.getTotalHoldersShareLevyAmount
  rw [h1]

/-- **C7 witness.**  A node that times out on every request: both levy
queries reject with that transport error. -/
theorem C7_witness :
    (DIMExplorer.new.getTotalAvailableLevyAmount failingApi).1
      = .error (.transport { message := "timeout" })
    ∧ (DIMExplorer.new.getTotalHoldersShareLevyAmount failingApi).1
      = .error (.transport { message := "timeout" }) := by
  have h := C7_transport_failures_propagate DIMExplorer.new failingApi
    { message := "timeout" } dimCoinParameters dimCoinLevy rfl rfl rfl
  exact ⟨h.1, h.2.1⟩

/-! Claim C8: the cache is never overwritten. -/

/-- **C8.**  Over every sequence of resolution calls, a registry cache
mapping, once present, stays exactly as it is: no later call overwrites it.
This holds in the strongest possible (degenerate) form: the line-81
`TypeError` (see C1) rejects every `getCurrency` call before the store at
`dim-explorer.js:98` can run, so no call ever mutates the cache at all. -/
theorem C8_cache_never_overwritten (api : NISApi) (ex : DIMExplorer)
    (calls : List String) (key : String) (d : MosaicParameters)
    (h : objGet key ex.parameters.mosaicParameters = some d) :
    objGet key (runGetCurrencyCalls api ex calls).parameters.mosaicParameters = some d := by
  induction calls generalizing ex with
  | nil => exact h
  | cons c rest ih =>
      unfold runGetCurrencyCalls
      rw [getCurrency_preserves_explorer]
      exact ih ex h

/-- **C8 witness.**  Three resolution calls over a fresh explorer leave the
pre-populated `dim:coin` mapping untouched. -/
theorem C8_witness :
    objGet "dim:coin" (runGetCurrencyCalls sampleApi DIMExplorer.new
      ["dim:coin", "dim:token", "dim:coin"]).parameters.mosaicParameters
      = some dimCoinParameters :=
  C8_cache_never_overwritten sampleApi DIMExplorer.new
    ["dim:coin", "dim:token", "dim:coin"] "dim:coin" dimCoinParameters rfl

/-! Claim C9: responses with no data field. -/

/-- **C9.**  The claim: a response with no `data` field is treated as an
empty list by both operations, so `getTotalAvailableLevyAmount` returns 0
and `getCurrency` returns the empty result, no error branch being
reachable.  The first half holds (`response.data || []` at
`dim-explorer.js:141`); the second does not: `getCurrency` rejects with the
line-81 `TypeError` (see C1) before its `response.data || []` at line 92
can run, instead of returning `.ok none`. -/
theorem C9_missing_data_field :
    (DIMExplorer.new.getTotalAvailableLevyAmount noDataApi).1 = .ok 0
    ∧ (DIMExplorer.new.getCurrency noDataApi "dim:token").1
        = .error (.typeError "Cannot read property hasOwnProperty of undefined")
    ∧ (DIMExplorer.new.getCurrency noDataApi "dim:token").1 ≠ .ok none :=
  ⟨rfl, rfl, fun h => Except.noConfusion h⟩

/-! Claim C10: bounds and monotonicity of the share computation. -/

/-- **C10.**  The holder-share computation never exceeds the pool and is
monotone: for every integer pool amount `L` the value computed from `L` by
`getTotalHoldersShareLevyAmount` (the binary64 evaluation of
`Math.ceil(0.3 * L)`, `holdersShareOfPool`) satisfies
`0 ≤ result ≤ L`, and larger pools give at least as large a share. -/
theorem C10_share_bounded_and_monotone :
    (∀ L : ℕ, 0 ≤ holdersShareOfPool L ∧ holdersShareOfPool L ≤ (L : ℤ))
    ∧ (∀ L1 L2 : ℕ, L1 ≤ L2 → holdersShareOfPool L1 ≤ holdersShareOfPool L2) :=
  ⟨fun L => ⟨holdersShareOfPool_nonneg L, holdersShareOfPool_le_pool L⟩,
    fun _ _ h => holdersShareOfPool_mono h⟩

/-- **C10 witness.**  The bounds at pool 7 and monotonicity from 3 to 7. -/
theorem C10_witness :
    (0 ≤ holdersShareOfPool 7 ∧ holdersShareOfPool 7 ≤ ((7 : ℕ) : ℤ))
    ∧ holdersShareOfPool 3 ≤ holdersShareOfPool 7 :=
  ⟨C10_share_bounded_and_monotone.1 7,
    C10_share_bounded_and_monotone.2 3 7 (by decide)⟩
